import Mathlib

/-!
Verification development for the workflow execution pipeline of the
Rule-Engine repository: the field-mapping engine (`src/workflows/field-mapper.ts`),
the workflow engine (`src/workflows/engine.ts`), the validator
(`src/workflows/validator.ts`) and the priority job queue
(`src/services/queue-service.ts`).

Modelling conventions:
* JavaScript values are modelled by `JValue`; JSON numbers are modelled as
  integers (all behaviours the development reasons about involve integers).
* `undefined` is a first-class `JValue` constructor (`jundef`), as in JS.
* Fallible JS code (`throw`) is modelled with `Except String`, the string
  being the thrown error's message.
* Wall-clock instants (`Date.now()`, `new Date()`) are integer epoch
  milliseconds passed explicitly.
-/

namespace RuleEngine

/-! ### String utilities

Lean core's `String` functions are position-based and do not reduce
definitionally, so the model uses its own character-list implementations
of the JS string operations it needs. -/

/-- Prefix test `s.startsWith pre`. -/
def strStarts (s pre : String) : Bool := pre.data.isPrefixOf s.data

/-- Drop of the first `n` characters, `s.slice(n)`. -/
def strDrop (s : String) (n : Nat) : String := String.mk (s.data.drop n)

/-- JS `String.prototype.trim` (whitespace at both ends removed). -/
def strTrim (s : String) : String :=
  String.mk (((s.data.dropWhile Char.isWhitespace).reverse.dropWhile
    Char.isWhitespace).reverse)

/-- Value of a list of decimal digits. -/
def natOfDigits : List Char → Nat
  | [] => 0
  | c :: rest => natOfDigits rest + c.toNat * 10 ^ rest.length - '0'.toNat * 10 ^ rest.length

/-- Parse a canonical (or sign/zero-padded) decimal natural. -/
def parseNat (s : String) : Option Nat :=
  if s.data ≠ [] ∧ s.data.all Char.isDigit then some (natOfDigits s.data) else none

/-- JavaScript runtime values (JSON values plus `undefined`).
Numbers are modelled as integers. -/
inductive JValue where
  | jundef
  | jnull
  | jbool (b : Bool)
  | jnum (n : Int)
  | jstr (s : String)
  | jarr (elems : List JValue)
  | jobj (fields : List (String × JValue))

open JValue

/-- Test for `v === undefined`. -/
def isUndef : JValue → Bool
  | jundef => true
  | _ => false

/-- Association-list lookup (JS object property read, `undefined` if absent). -/
def assocGet (fields : List (String × JValue)) (k : String) : JValue :=
  match fields with
  | [] => jundef
  | (k', v) :: rest => if k' = k then v else assocGet rest k

/-- Association-list update: overwrite in place if the key exists
(JS property assignment keeps insertion order), else append. -/
def assocSet (fields : List (String × JValue)) (k : String) (v : JValue) :
    List (String × JValue) :=
  match fields with
  | [] => [(k, v)]
  | (k', v') :: rest =>
    if k' = k then (k', v) :: rest else (k', v') :: assocSet rest k v

/-- Write index `i` of a JS array, extending with `undefined` holes as JS does. -/
def listWrite (xs : List JValue) (i : Nat) (v : JValue) : List JValue :=
  match xs, i with
  | [], 0 => [v]
  | [], Nat.succ j => jundef :: listWrite [] j v
  | _ :: rest, 0 => v :: rest
  | x :: rest, Nat.succ j => x :: listWrite rest j v

/-- JS truthiness: `undefined`, `null`, `false`, `0` and `""` are falsy. -/
def jsFalsy : JValue → Bool
  | jundef => true
  | jnull => true
  | jbool b => !b
  | jnum n => n = 0
  | jstr s => s = ""
  | jarr _ => false
  | jobj _ => false

mutual

/-- JS `String(v)` conversion. Arrays render as comma-joined elements with
`null`/`undefined` elements rendered empty, objects as `[object Object]`. -/
def jsString : JValue → String
  | jundef => "undefined"
  | jnull => "null"
  | jbool b => if b then "true" else "false"
  | jnum n => toString n
  | jstr s => s
  | jarr xs => String.intercalate "," (jsStringElems xs)
  | jobj _ => "[object Object]"

/-- Stringification of array elements for `jsString`. -/
def jsStringElems : List JValue → List String
  | [] => []
  | jundef :: rest => "" :: jsStringElems rest
  | jnull :: rest => "" :: jsStringElems rest
  | x :: rest => jsString x :: jsStringElems rest

end

/-- Parse a trimmed decimal integer literal with optional sign
(model of the numeric strings accepted by JS `Number`; JSON numbers are
modelled as integers, so only integer literals are numeric here). -/
def strToInt (s : String) : Option Int :=
  match s.data with
  | [] => none
  | '-' :: rest => (parseNat (String.mk rest)).map fun n => -(n : Int)
  | '+' :: rest => (parseNat (String.mk rest)).map fun n => (n : Int)
  | _ => (parseNat s).map fun n => (n : Int)

/-- JS `Number(v)` conversion; `none` models `NaN`.  Strings are trimmed and
parsed as integer literals (the empty string is `0`); arrays and objects
convert via their string form, as in JS. -/
def jsToNumber : JValue → Option Int
  | jundef => none
  | jnull => some 0
  | jbool b => some (if b then 1 else 0)
  | jnum n => some n
  | jstr s =>
    let t := strTrim s
    if t = "" then some 0 else strToInt t
  | jarr xs =>
    let t := strTrim (jsString (jarr xs))
    if t = "" then some 0 else strToInt t
  | jobj _ => none

/-- JS property read `base[key]` as used by the transform code on `config`
objects: throws a `TypeError` when the base is `null`/`undefined`,
returns `undefined` for properties of non-objects. -/
def getProp (base : JValue) (k : String) : Except String JValue :=
  match base with
  | jundef => .error ("TypeError: Cannot read properties of undefined (reading '" ++ k ++ "')")
  | jnull => .error ("TypeError: Cannot read properties of null (reading '" ++ k ++ "')")
  | jobj fs => .ok (assocGet fs k)
  | _ => .ok jundef

/-! ### Path parsing and lodash-style `get`/`set`

The path syntax is the restricted JSONPath of `field-mapper.ts`: `$` is the
whole document, a `$.` prefix is stripped, the remainder is a lodash path.
Lodash path strings are modelled as dot/bracket segment lists: `[i]` is
treated as `.i` and empty segments are dropped. -/

/-- Split a lodash-style path string into segments. -/
def parsePath (path : String) : List String :=
  let rec go : List Char → List Char → List String
    | [], acc => [String.mk acc.reverse]
    | '.' :: rest, acc => String.mk acc.reverse :: go rest []
    | '[' :: rest, acc => String.mk acc.reverse :: go rest []
    | ']' :: rest, acc => go rest acc
    | c :: rest, acc => go rest (c :: acc)
  (go path.data []).filter (· ≠ "")

/-- A segment is an array index when it is a canonical decimal natural
(lodash `isIndex`). -/
def segIndex (s : String) : Option Nat :=
  match parseNat s with
  | some n => if s = toString n then some n else none
  | none => none

/-- Lodash `get` along parsed segments: walking into a missing key or a
non-container yields `undefined`. -/
def getPath : JValue → List String → JValue
  | v, [] => v
  | jobj fs, k :: rest => getPath (assocGet fs k) rest
  | jarr xs, k :: rest =>
    match segIndex k with
    | some i => getPath (xs.getD i jundef) rest
    | none => jundef
  | _, _ :: _ => jundef

/-- Lodash `set` along parsed segments, auto-creating intermediate
containers (an array when the next segment is an index, else an object).
Setting into a primitive leaves it unchanged, as lodash does for
non-objects. String-keyed writes into arrays (lost in a JSON model)
leave the array unchanged. -/
def setPath : JValue → List String → JValue → JValue
  | obj, [], _ => obj
  | jobj fs, [k], v => jobj (assocSet fs k v)
  | jobj fs, k :: k2 :: rest, v =>
    let child := assocGet fs k
    let child' :=
      match child with
      | jobj _ => child
      | jarr _ => child
      | _ => if (segIndex k2).isSome then jarr [] else jobj []
    jobj (assocSet fs k (setPath child' (k2 :: rest) v))
  | jarr xs, [k], v =>
    match segIndex k with
    | some i => jarr (listWrite xs i v)
    | none => jarr xs
  | jarr xs, k :: k2 :: rest, v =>
    (match segIndex k with
     | some i =>
       let child := xs.getD i jundef
       let child' :=
         match child with
         | jobj _ => child
         | jarr _ => child
         | _ => if (segIndex k2).isSome then jarr [] else jobj []
       jarr (listWrite xs i (setPath child' (k2 :: rest) v))
     | none => jarr xs)
  | v, _ :: _, _ => v

/-- Strip of a leading `$.` from a path. -/
def stripRoot (path : String) : String :=
  if strStarts path "$." then strDrop path 2 else path

/-- Function `extractValue` of `field-mapper.ts`: `$` returns the whole document, a
`$.` prefix is stripped, then lodash `get`. -/
def extractValue (obj : JValue) (path : String) : JValue :=
  if path = "$" then obj
  else getPath obj (parsePath (stripRoot path))

/-- Function `setValue` of `field-mapper.ts`: writing to `$` itself throws, a `$.`
prefix is stripped, then lodash `set`. -/
def setValue (obj : JValue) (path : String) (v : JValue) : Except String JValue :=
  if path = "$" then .error "Cannot set root object"
  else .ok (setPath obj (parsePath (stripRoot path)) v)

/-! ### Template transform -/

/-- Scanner for `applyTemplate`'s regex `\{\x7b([^\x7d]+)\}\x7d`: at each
position a placeholder is a `{{`, a nonempty run of non-`}` characters,
then `}}`; the run's trimmed content is resolved against the document and
a defined value replaces the placeholder (via `String(...)`), an
`undefined` one leaves it literal. -/
def templateGo (doc : JValue) : Nat → List Char → List Char
  | 0, l => l
  | Nat.succ fuel, l =>
    match l with
    | [] => []
    | '{' :: '{' :: rest =>
      let inner := rest.takeWhile (fun c => c ≠ '}')
      let after := rest.drop inner.length
      if inner ≠ [] ∧ after.take 2 = ['}', '}'] then
        let v := extractValue doc (strTrim (String.mk inner))
        (if isUndef v then '{' :: '{' :: (inner ++ ['}', '}']) else (jsString v).data)
          ++ templateGo doc fuel (after.drop 2)
      else
        '{' :: templateGo doc fuel ('{' :: rest)
    | c :: rest => c :: templateGo doc fuel rest

/-- Function `applyTemplate` of `field-mapper.ts`.  The scanner is fueled
for structural recursion; every step consumes at least one character, so
`length + 1` fuel always suffices. -/
def applyTemplate (template : String) (data : JValue) : String :=
  String.mk (templateGo data (template.data.length + 1) template.data)

/-! ### Scalar transforms -/

/-- Conversion `new Date(value)` to epoch milliseconds; `none` is an invalid
date.  Modelling restriction: numeric coercion only (numbers, booleans,
`null`); date strings are outside the model and parse as invalid. -/
def dateParse : JValue → Option Int
  | jnum n => some n
  | jbool b => some (if b then 1 else 0)
  | jnull => some 0
  | _ => none

/-- Two-digit zero padding. -/
def pad2 (n : Nat) : String := if n < 10 then "0" ++ toString n else toString n

/-- Three-digit zero padding. -/
def pad3 (n : Nat) : String :=
  if n < 10 then "00" ++ toString n else if n < 100 then "0" ++ toString n else toString n

/-- Civil date from days since the Unix epoch (standard era-based algorithm). -/
def civilFromDays (z0 : Int) : Int × Nat × Nat :=
  let z := z0 + 719468
  let era := (if z ≥ 0 then z else z - 146096) / 146097
  let doe := (z - era * 146097).toNat
  let yoe := (doe - doe / 1460 + doe / 36524 - doe / 146096) / 365
  let doy := doe - (365 * yoe + yoe / 4 - yoe / 100)
  let mp := (5 * doy + 2) / 153
  let d := doy - (153 * mp + 2) / 5 + 1
  let m := if mp < 10 then mp + 3 else mp - 9
  ((yoe : Int) + era * 400 + (if m ≤ 2 then 1 else 0), m, d)

/-- Model of `Date.prototype.toISOString` for epoch milliseconds. -/
def isoString (ms : Int) : String :=
  let days := Int.fdiv ms 86400000
  let rem := (ms - days * 86400000).toNat
  let (y, m, d) := civilFromDays days
  let yearStr :=
    if 0 ≤ y ∧ y < 10000 then
      let yn := y.toNat
      (if yn < 10 then "000" else if yn < 100 then "00" else if yn < 1000 then "0" else "")
        ++ toString yn
    else (if y < 0 then "-" else "+") ++ toString y.natAbs
  yearStr ++ "-" ++ pad2 m ++ "-" ++ pad2 d ++ "T" ++ pad2 (rem / 3600000) ++ ":"
    ++ pad2 (rem / 60000 % 60) ++ ":" ++ pad2 (rem / 1000 % 60) ++ "."
    ++ pad3 (rem % 1000) ++ "Z"

/-- Function `formatDate` of `field-mapper.ts`: invalid dates throw
`Invalid date: ...`; the `config.format` property is read (throwing when
`config` is `null`/`undefined`) but both branches return the ISO string. -/
def formatDate (value : JValue) (config : JValue) : Except String JValue :=
  match dateParse value with
  | none => .error ("Invalid date: " ++ jsString value)
  | some ms => do
    let _fmt ← getProp config "format"
    .ok (jstr (isoString ms))

/-- Grouping of a reversed digit string into threes. -/
def groupRev : List Char → List Char
  | a :: b :: c :: d :: rest => a :: b :: c :: ',' :: groupRev (d :: rest)
  | l => l

/-- Model of `Number.prototype.toLocaleString` with
`minimumFractionDigits = maximumFractionDigits = decimals`: en-US digit
grouping is used for every locale (the model does not vary separators by
locale), integral values render with `decimals` zero fraction digits. -/
def localeFixed (n : Int) (decimals : Nat) : String :=
  (if n < 0 then "-" else "")
    ++ String.mk ((groupRev (toString n.natAbs).data.reverse).reverse)
    ++ (if decimals = 0 then "" else "." ++ String.mk (List.replicate decimals '0'))

/-- Function `formatNumber` of `field-mapper.ts`: `Number(value)` is checked
for `NaN` first (throwing `Invalid number: ...`), then
`{ decimals = 2, locale = 'en-US' }` is destructured from `config`
(throwing a `TypeError` when `config` is `null`/`undefined`), and the
locale-aware fixed-decimal rendering is returned.  A present `decimals`
outside the digit-count range accepted by `toLocaleString` throws a
`RangeError`. -/
def formatNumber (value : JValue) (config : JValue) : Except String JValue :=
  match jsToNumber value with
  | none => .error ("Invalid number: " ++ jsString value)
  | some num => do
    let dv ← getProp config "decimals"
    let lv ← getProp config "locale"
    let decimals ←
      match dv with
      | jundef => Except.ok 2
      | v =>
        match jsToNumber v with
        | some k =>
          if 0 ≤ k ∧ k ≤ 20 then Except.ok k.toNat
          else Except.error "RangeError: maximumFractionDigits value is out of range"
        | none => Except.error "RangeError: maximumFractionDigits value is out of range"
    let _locale := match lv with | jundef => "en-US" | v => jsString v
    .ok (jstr (localeFixed num decimals))

/-! ### Conditional transform -/

/-- JS strict equality `===`.  Modelling restriction: arrays and objects
compare by reference, which a value model cannot witness, so they compare
unequal (as two distinct literals do in JS). -/
def strictEq : JValue → JValue → Bool
  | jundef, jundef => true
  | jnull, jnull => true
  | jbool a, jbool b => a = b
  | jnum a, jnum b => a = b
  | jstr a, jstr b => a = b
  | _, _ => false

/-- Lexicographic order on character lists (JS string relational compare). -/
def chLt : List Char → List Char → Bool
  | [], [] => false
  | [], _ :: _ => true
  | _ :: _, [] => false
  | a :: as, b :: bs => if a < b then true else if b < a then false else chLt as bs

/-- JS abstract relational comparison `a < b`: string-to-string compares
lexicographically, otherwise both sides convert with `Number` and a `NaN`
side makes the comparison false. -/
def jsLt : JValue → JValue → Bool
  | jstr a, jstr b => chLt a.data b.data
  | a, b =>
    match jsToNumber a, jsToNumber b with
    | some x, some y => x < y
    | _, _ => false

/-- Substring test for `String.prototype.includes`. -/
def containsSub (s sub : String) : Bool :=
  let rec go : List Char → Bool
    | [] => sub.data.isPrefixOf []
    | c :: rest => if sub.data.isPrefixOf (c :: rest) then true else go rest
  go s.data

/-- Function `evaluateCondition` of `field-mapper.ts`: destructures
`{ operator, compareValue }` from the condition (throwing a `TypeError`
when it is `null`/`undefined`) and dispatches on the operator string;
unknown operators are false. -/
def evaluateCondition (value : JValue) (condition : JValue) (_data : JValue) :
    Except String Bool := do
  let op ← getProp condition "operator"
  let cmp ← getProp condition "compareValue"
  .ok <|
    match op with
    | jstr "equals" => strictEq value cmp
    | jstr "not_equals" => !strictEq value cmp
    | jstr "greater_than" => jsLt cmp value
    | jstr "less_than" => jsLt value cmp
    | jstr "contains" => containsSub (jsString value) (jsString cmp)
    | jstr "exists" => !(isUndef value) && !(strictEq value jnull)
    | jstr "empty" => jsFalsy value || (match value with | jarr [] => true | _ => false)
    | _ => false

/-- Function `applyConditional` of `field-mapper.ts`: destructures
`{ condition, ifTrue, ifFalse }` from the config and selects the branch. -/
def applyConditional (value : JValue) (config : JValue) (data : JValue) :
    Except String JValue := do
  let condition ← getProp config "condition"
  let ifTrue ← getProp config "ifTrue"
  let ifFalse ← getProp config "ifFalse"
  let b ← evaluateCondition value condition data
  .ok (if b then ifTrue else ifFalse)

/-! ### String transforms (split / join / replace / regex)

The `replace` and `regex` transforms build a JS `RegExp` from configured
pattern strings.  A regular-expression engine is outside this model:
patterns are modelled as literal strings (the exact behaviour for
patterns without metacharacters), which is the fragment this development
reasons about. -/

/-- Split on a nonempty literal delimiter (head `dc`, tail `dtail`),
scanning left to right without overlap. -/
def splitChars (dc : Char) (dtail : List Char) : Nat → List Char → List (List Char)
  | _, [] => [[]]
  | 0, l => [l]
  | Nat.succ fuel, c :: rest =>
    if (dc :: dtail).isPrefixOf (c :: rest) then
      [] :: splitChars dc dtail fuel (rest.drop dtail.length)
    else
      match splitChars dc dtail fuel rest with
      | [] => [[c]]
      | h :: t => (c :: h) :: t

/-- JS `String.prototype.split` with a string separator: the empty
separator splits into single characters. -/
def splitStr (s delim : String) : List String :=
  match delim.data with
  | [] => s.data.map fun c => String.mk [c]
  | dc :: dtail => (splitChars dc dtail (s.data.length + 1) s.data).map String.mk

/-- Replacement of a nonempty literal pattern: every occurrence when `g`,
otherwise only the first. -/
def replaceChars (pc : Char) (ptail : List Char) (repl : List Char) (g : Bool) :
    Nat → List Char → List Char
  | _, [] => []
  | 0, l => l
  | Nat.succ fuel, c :: rest =>
    if (pc :: ptail).isPrefixOf (c :: rest) then
      repl ++
        (if g then replaceChars pc ptail repl g fuel (rest.drop ptail.length)
         else rest.drop ptail.length)
    else c :: replaceChars pc ptail repl g fuel rest

/-- Replacement over strings; an empty pattern matches at every position
(JS empty-regex behaviour): globally it intersperses the replacement,
non-globally it prefixes it. -/
def replaceStr (s pat repl : String) (g : Bool) : String :=
  match pat.data with
  | [] =>
    if g then
      String.mk (repl.data ++ (s.data.flatMap fun c => c :: repl.data))
    else String.mk (repl.data ++ s.data)
  | pc :: ptail => String.mk (replaceChars pc ptail repl.data g (s.data.length + 1) s.data)

/-- Count of non-overlapping occurrences of a nonempty literal pattern. -/
def countOcc (pc : Char) (ptail : List Char) : Nat → List Char → Nat
  | _, [] => 0
  | 0, _ => 0
  | Nat.succ fuel, c :: rest =>
    if (pc :: ptail).isPrefixOf (c :: rest) then
      countOcc pc ptail fuel (rest.drop ptail.length) + 1
    else countOcc pc ptail fuel rest

/-- Valid JS regular-expression flag characters. -/
def validFlags (s : String) : Bool :=
  s.data.all fun c => c ∈ ['d', 'g', 'i', 'm', 's', 'u', 'v', 'y']

/-! ### JSON parsing (`parse-json` transform, `JSON.parse`) -/

/-- JSON whitespace characters. -/
def jsonWS (c : Char) : Bool := c = ' ' || c = '\t' || c = '\n' || c = '\r'

/-- Drop of leading JSON whitespace. -/
def skipWS (l : List Char) : List Char := l.dropWhile jsonWS

/-- Value of a hexadecimal digit. -/
def hexVal (c : Char) : Option Nat :=
  if c.isDigit then some (c.toNat - '0'.toNat)
  else if 'a' ≤ c ∧ c ≤ 'f' then some (c.toNat - 'a'.toNat + 10)
  else if 'A' ≤ c ∧ c ≤ 'F' then some (c.toNat - 'A'.toNat + 10)
  else none

/-- Parse of a JSON string body (after the opening quote), handling the
JSON escape sequences; returns the characters and the rest of the input. -/
def parseJStr : Nat → List Char → Except String (List Char × List Char)
  | _, [] => .error "SyntaxError: Unterminated string in JSON"
  | _, '"' :: rest => .ok ([], rest)
  | 0, _ => .error "SyntaxError: Unterminated string in JSON"
  | Nat.succ f, '\\' :: 'n' :: r => (parseJStr f r).map fun (s, r') => ('\n' :: s, r')
  | Nat.succ f, '\\' :: 't' :: r => (parseJStr f r).map fun (s, r') => ('\t' :: s, r')
  | Nat.succ f, '\\' :: 'r' :: r => (parseJStr f r).map fun (s, r') => ('\r' :: s, r')
  | Nat.succ f, '\\' :: 'b' :: r => (parseJStr f r).map fun (s, r') => ('\x08' :: s, r')
  | Nat.succ f, '\\' :: 'f' :: r => (parseJStr f r).map fun (s, r') => ('\x0C' :: s, r')
  | Nat.succ f, '\\' :: '"' :: r => (parseJStr f r).map fun (s, r') => ('"' :: s, r')
  | Nat.succ f, '\\' :: '\\' :: r => (parseJStr f r).map fun (s, r') => ('\\' :: s, r')
  | Nat.succ f, '\\' :: '/' :: r => (parseJStr f r).map fun (s, r') => ('/' :: s, r')
  | Nat.succ f, '\\' :: 'u' :: h1 :: h2 :: h3 :: h4 :: r =>
    (match hexVal h1, hexVal h2, hexVal h3, hexVal h4 with
     | some a, some b, some c, some d =>
       (parseJStr f r).map fun (s, r') =>
         (Char.ofNat (((a * 16 + b) * 16 + c) * 16 + d) :: s, r')
     | _, _, _, _ => .error "SyntaxError: Bad Unicode escape in JSON")
  | _, '\\' :: _ => .error "SyntaxError: Bad escaped character in JSON"
  | Nat.succ f, c :: rest => (parseJStr f rest).map fun (s, r') => (c :: s, r')

/-- Parse of a JSON number.  JSON numbers are modelled as integers: a
literal whose mathematical value is not an integer is outside the model
and rejected. -/
def parseJNum (cs : List Char) : Except String (JValue × List Char) := do
  let (neg, c1) := match cs with | '-' :: r => (true, r) | _ => (false, cs)
  let ip := c1.takeWhile Char.isDigit
  let c2 := c1.drop ip.length
  if ip = [] then throw "SyntaxError: Unexpected token in JSON" else
  if ip.length > 1 ∧ ip.headD '0' = '0' then
    throw "SyntaxError: Unexpected number in JSON" else do
  let (fp, c3) ←
    match c2 with
    | '.' :: r =>
      let f := r.takeWhile Char.isDigit
      if f = [] then throw "SyntaxError: Unterminated fractional number in JSON"
      else pure (f, r.drop f.length)
    | _ => pure (([] : List Char), c2)
  let (esign, edigits, c4) ←
    match c3 with
    | 'e' :: r | 'E' :: r =>
      let (sg, r2) : Int × List Char :=
        match r with
        | '+' :: r2 => (1, r2)
        | '-' :: r2 => (-1, r2)
        | _ => (1, r)
      let ed := r2.takeWhile Char.isDigit
      if ed = [] then throw "SyntaxError: Exponent part is missing a number in JSON"
      else pure (sg, ed, r2.drop ed.length)
    | _ => pure ((1 : Int), ([] : List Char), c3)
  let mant : Nat := natOfDigits (ip ++ fp)
  let scale : Int := esign * (natOfDigits edigits : Int) - (fp.length : Int)
  if scale ≥ 0 then
    let v : Int := (mant : Int) * 10 ^ scale.toNat
    pure (jnum (if neg then -v else v), c4)
  else
    let p : Nat := (-scale).toNat
    if mant % 10 ^ p = 0 then
      pure (jnum (if neg then -((mant / 10 ^ p : Nat) : Int) else ((mant / 10 ^ p : Nat) : Int)), c4)
    else throw "Model limitation: non-integral JSON number"

mutual

/-- Fueled recursive-descent JSON value parser. -/
def parseJV : Nat → List Char → Except String (JValue × List Char)
  | 0, _ => .error "SyntaxError: JSON input too deep"
  | Nat.succ fuel, cs =>
    match skipWS cs with
    | 'n' :: 'u' :: 'l' :: 'l' :: rest => .ok (jnull, rest)
    | 't' :: 'r' :: 'u' :: 'e' :: rest => .ok (jbool true, rest)
    | 'f' :: 'a' :: 'l' :: 's' :: 'e' :: rest => .ok (jbool false, rest)
    | '"' :: rest => (parseJStr (rest.length + 1) rest).map fun (s, r) => (jstr (String.mk s), r)
    | '[' :: rest =>
      (match skipWS rest with
       | ']' :: r => .ok (jarr [], r)
       | r => parseJArr fuel r [])
    | '{' :: rest =>
      (match skipWS rest with
       | '}' :: r => .ok (jobj [], r)
       | r => parseJObj fuel r [])
    | rest => parseJNum rest

/-- Array elements after the opening bracket. -/
def parseJArr : Nat → List Char → List JValue → Except String (JValue × List Char)
  | 0, _, _ => .error "SyntaxError: JSON input too deep"
  | Nat.succ fuel, cs, acc => do
    let (v, r) ← parseJV fuel cs
    match skipWS r with
    | ',' :: r2 => parseJArr fuel r2 (acc ++ [v])
    | ']' :: r2 => .ok (jarr (acc ++ [v]), r2)
    | _ => .error "SyntaxError: Expected ',' or ']' in JSON"

/-- Object members after the opening brace. -/
def parseJObj : Nat → List Char → List (String × JValue) →
    Except String (JValue × List Char)
  | 0, _, _ => .error "SyntaxError: JSON input too deep"
  | Nat.succ fuel, cs, acc => do
    let (k, r0) ←
      match skipWS cs with
      | '"' :: r => parseJStr (r.length + 1) r
      | _ => .error "SyntaxError: Expected property name in JSON"
    let r1 ←
      match skipWS r0 with
      | ':' :: r => pure r
      | _ => .error "SyntaxError: Expected ':' in JSON"
    let (v, r2) ← parseJV fuel r1
    let acc := assocSet acc (String.mk k) v
    match skipWS r2 with
    | ',' :: r3 => parseJObj fuel r3 acc
    | '}' :: r3 => .ok (jobj acc, r3)
    | _ => .error "SyntaxError: Expected ',' or '\x7d' in JSON"

end

/-- Model of `JSON.parse`: parse one value, then only whitespace may
remain. -/
def jsonParse (s : String) : Except String JValue := do
  let (v, r) ← parseJV (s.data.length + 2) s.data
  if skipWS r = [] then pure v
  else throw "SyntaxError: Unexpected non-whitespace character after JSON"

/-! ### Transform dispatch and the field-mapping engine -/

/-- A `Transform` of `integrations/types.ts`: a type tag and an arbitrary
config value (`config?: any`, so possibly `undefined`). -/
structure Transform where
  type : String
  config : JValue

/-- A `FieldMapping` of `integrations/types.ts`. -/
structure FieldMapping where
  source : String
  target : String
  transform : Option Transform := none

/-- Interpreter for the `function` transform's caller-supplied code
(`new Function('value', 'data', code)`), which is outside the embeddable
fragment; the development is parameterized over it.  Arguments: current
value, the configured code, the source document. -/
abbrev FnEval : Type := JValue → JValue → JValue → Except String JValue

/-- Function `applyTransform` of `field-mapper.ts`: dispatch on the
transform type; unknown types pass the value through (with a logged
warning, not modelled). -/
def applyTransform (fnEval : FnEval) (value : JValue) (t : Transform)
    (sourceData : JValue) : Except String JValue :=
  match t.type with
  | "static" => getProp t.config "value"
  | "template" => do
    let tv ← getProp t.config "template"
    match tv with
    | jstr s => .ok (jstr (applyTemplate s sourceData))
    | _ => .error "TypeError: template.replace is not a function"
  | "function" => do
    let code ← getProp t.config "code"
    fnEval value code sourceData
  | "conditional" => applyConditional value t.config sourceData
  | "format-date" => formatDate value t.config
  | "format-number" => formatNumber value t.config
  | "parse-json" =>
    (match value with
     | jstr s => jsonParse s
     | v => .ok v)
  | "to-uppercase" => .ok (jstr (String.mk ((jsString value).data.map Char.toUpper)))
  | "to-lowercase" => .ok (jstr (String.mk ((jsString value).data.map Char.toLower)))
  | "trim" => .ok (jstr (strTrim (jsString value)))
  | "split" => do
    let dv ← getProp t.config "delimiter"
    let d := if jsFalsy dv then "," else jsString dv
    .ok (jarr ((splitStr (jsString value) d).map jstr))
  | "join" =>
    (match value with
     | jarr xs => do
       let dv ← getProp t.config "delimiter"
       let d := if jsFalsy dv then "," else jsString dv
       .ok (jstr (String.intercalate d (jsStringElems xs)))
     | v => .ok v)
  | "replace" => do
    let sv ← getProp t.config "search"
    let fv ← getProp t.config "flags"
    let rv ← getProp t.config "replacement"
    let flags := if jsFalsy fv then "g" else jsString fv
    if validFlags flags then
      let pat := if isUndef sv then "" else jsString sv
      .ok (jstr (replaceStr (jsString value) pat (jsString rv) (flags.data.contains 'g')))
    else .error "SyntaxError: Invalid flags supplied to RegExp constructor"
  | "regex" => do
    let pv ← getProp t.config "pattern"
    let fv ← getProp t.config "flags"
    let gv ← getProp t.config "group"
    let flags := match fv with | jundef => "" | v => jsString v
    if validFlags flags then
      let pat := if isUndef pv then "" else jsString pv
      let s := jsString value
      let group : Nat := if jsFalsy gv then 0 else ((jsToNumber gv).getD 0).toNat
      let hit :=
        match pat.data with
        | [] => true
        | _ :: _ => containsSub s pat
      if hit then
        if flags.data.contains 'g' then
          let cnt :=
            match pat.data with
            | [] => s.data.length + 1
            | pc :: ptail => countOcc pc ptail (s.data.length + 1) s.data
          .ok (if group < cnt then jstr pat else jundef)
        else .ok (if group = 0 then jstr pat else jundef)
      else .ok jnull
    else .error "SyntaxError: Invalid flags supplied to RegExp constructor"
  | _ => .ok value

/-- Loop body of `applyFieldMappings`: for each mapping in declared order,
extract from the source, optionally transform, write at the target;
errors propagate (the code logs and rethrows). -/
def applyMappingsGo (fnEval : FnEval) :
    List FieldMapping → JValue → JValue → Except String JValue
  | [], _, acc => .ok acc
  | mp :: rest, src, acc => do
    let v0 := extractValue src mp.source
    let v ←
      match mp.transform with
      | none => Except.ok v0
      | some t => applyTransform fnEval v0 t src
    let acc' ← setValue acc mp.target v
    applyMappingsGo fnEval rest src acc'

/-- Function `applyFieldMappings` of `field-mapper.ts`: start from a
shallow copy of `staticValues`, then apply the mappings in order. -/
def applyFieldMappings (fnEval : FnEval) (mappings : List FieldMapping)
    (sourceData : JValue) (staticValues : List (String × JValue)) :
    Except String JValue :=
  applyMappingsGo fnEval mappings sourceData (jobj staticValues)

/-! ### Priority job queue (`services/queue-service.ts`)

Redis sorted sets are modelled as lists of `(score, member)` kept sorted
by score with ties broken by the member's job id (a serialized `QueueJob`
begins with its `id` property, so lexicographic member order of distinct
same-score jobs is id order).  Members are the job records themselves;
member removal is keyed by job id — faithful whenever ids are distinct,
which every theorem below assumes or establishes. -/

/-- A `QueueJob`: the payload fields are inlined; `errMessage`/`errStack`
model the error annotation added on dead-lettering. -/
structure QJob where
  id : String
  workflowId : String
  organizationId : String
  triggerPayload : JValue
  triggerSource : String
  priority : Int
  retryCount : Nat
  maxRetries : Nat
  scheduledFor : Option Int
  createdAt : Int
  errMessage : Option String := none
  errStack : Option String := none

/-- Sorted insert into a score-ordered set (`zadd`). -/
def zInsert (score : Int) (j : QJob) : List (Int × QJob) → List (Int × QJob)
  | [] => [(score, j)]
  | (s, m) :: rest =>
    if score < s then (score, j) :: (s, m) :: rest
    else if score = s ∧ chLt j.id.data m.id.data then (score, j) :: (s, m) :: rest
    else (s, m) :: zInsert score j rest

/-- Removal of a member from a sorted set (`zrem`), keyed by job id. -/
def zremId (jobId : String) (l : List (Int × QJob)) : List (Int × QJob) :=
  l.filter fun (_, j) => j.id ≠ jobId

/-- Hash write (`hset`). -/
def hset (l : List (String × QJob)) (k : String) (j : QJob) : List (String × QJob) :=
  match l with
  | [] => [(k, j)]
  | (k', j') :: rest => if k' = k then (k', j) :: rest else (k', j') :: hset rest k j

/-- Hash read (`hget`). -/
def hget (l : List (String × QJob)) (k : String) : Option QJob :=
  match l with
  | [] => none
  | (k', j) :: rest => if k' = k then some j else hget rest k

/-- Hash delete (`hdel`). -/
def hdel (l : List (String × QJob)) (k : String) : List (String × QJob) :=
  l.filter fun (k', _) => k' ≠ k

/-- The four Redis stores of the queue service: the ready set
(`workflow:queue`), the delayed set (`workflow:scheduled`), the in-flight
registry (`workflow:processing`) and the dead-letter store
(`workflow:dead_letter`). -/
structure RedisState where
  queue : List (Int × QJob) := []
  scheduled : List (Int × QJob) := []
  processing : List (String × QJob) := []
  deadletter : List (Int × QJob) := []

/-- Function `enqueueWorkflow` of `queue-service.ts`.  `now` is the current
epoch-millisecond instant and `jobId` the generated nanoid.  A future
`scheduledFor` goes to the delayed set keyed by that timestamp; otherwise
the ready set with order key `now − priority·1,000,000`. -/
def enqueueWorkflow (now : Int) (jobId workflowId organizationId : String)
    (triggerPayload : JValue) (triggerSource : String)
    (priority : Option Int) (scheduledFor : Option Int)
    (st : RedisState) : String × RedisState :=
  let job : QJob :=
    { id := jobId, workflowId, organizationId, triggerPayload, triggerSource,
      priority := priority.getD 0, retryCount := 0, maxRetries := 3,
      scheduledFor := scheduledFor, createdAt := now }
  let future : Bool := match scheduledFor with | some t => decide (now < t) | none => false
  if future then
    (jobId, { st with scheduled := zInsert (scheduledFor.getD 0) job st.scheduled })
  else
    (jobId, { st with queue := zInsert (now - priority.getD 0 * 1000000) job st.queue })

/-- Function `moveScheduledJobsToQueue` of `queue-service.ts`: every delayed
job whose score has arrived is moved to the ready set with order key
`now − priority·1,000,000`. -/
def moveScheduled (now : Int) (st : RedisState) : RedisState :=
  { st with
    scheduled := st.scheduled.filter fun e => ¬ (e.1 ≤ now),
    queue := (st.scheduled.filter fun e => e.1 ≤ now).foldl
      (fun q e => zInsert (now - e.2.priority * 1000000) e.2 q) st.queue }

/-- Function `dequeueJob` of `queue-service.ts` run to completion without
interleaving: promote due delayed jobs, read the lowest-key ready job,
remove it from the ready set and record it in the in-flight registry. -/
def dequeueJob (now : Int) (st : RedisState) : Option QJob × RedisState :=
  let st := moveScheduled now st
  match st.queue with
  | [] => (none, st)
  | (_, job) :: _ =>
    (some job,
      { st with queue := zremId job.id st.queue,
                processing := hset st.processing job.id job })

/-- Function `completeJob` of `queue-service.ts`. -/
def completeJob (jobId : String) (st : RedisState) : RedisState :=
  { st with processing := hdel st.processing jobId }

/-- Function `failJob` of `queue-service.ts`: missing jobs are ignored;
otherwise retryCount is incremented, and the job either re-enters the
delayed set with score `now + 2^retryCount·1000` ms or, once
`retryCount ≥ maxRetries` (default 3 when the field is falsy), moves to
the dead-letter store annotated with the error. -/
def failJob (now : Int) (jobId : String) (errMessage errStack : String)
    (st : RedisState) : RedisState :=
  match hget st.processing jobId with
  | none => st
  | some found =>
    let job := { found with retryCount := found.retryCount + 1 }
    let maxR := if job.maxRetries = 0 then 3 else job.maxRetries
    if job.retryCount < maxR then
      let delayMs : Int := 2 ^ job.retryCount * 1000
      { st with processing := hdel st.processing jobId,
                scheduled := zInsert (now + delayMs) job st.scheduled }
    else
      { st with processing := hdel st.processing jobId,
                deadletter := zInsert now
                  { job with errMessage := some errMessage, errStack := some errStack }
                  st.deadletter }

/-- Job ids across the ready and delayed sets (the sets a ready job can
re-enter from). -/
def allIds (st : RedisState) : List String :=
  st.queue.map (fun e => e.2.id) ++ st.scheduled.map (fun e => e.2.id)

/-- A sample fresh job as built by `enqueueWorkflow` with default options. -/
def sampleJob : QJob :=
  { id := "j1", workflowId := "wf", organizationId := "org",
    triggerPayload := jnull, triggerSource := "manual", priority := 0,
    retryCount := 0, maxRetries := 3, scheduledFor := none, createdAt := 0 }

/-- A second sample fresh job. -/
def sampleJob2 : QJob := { sampleJob with id := "j2" }

/-! ### Interleaved dequeue

`dequeueJob` performs its Redis operations as separate awaited calls.  To
reason about concurrent workers, each call is one atomic step of a worker
program (the promotion pass is coarse-grained as a single step; the race
exhibited below does not involve it). -/

/-- A worker running `dequeueJob`: program counter over the operations
0 = promote delayed jobs, 1 = read lowest-key member, 2 = remove it from
the ready set, 3 = write it to the in-flight registry, 4 = returned. -/
structure Worker where
  pc : Nat := 0
  fetched : Option QJob := none

/-- One atomic Redis operation of a worker's `dequeueJob` run. -/
def workerStep (now : Int) (st : RedisState) (w : Worker) : RedisState × Worker :=
  match w.pc with
  | 0 => (moveScheduled now st, { w with pc := 1 })
  | 1 =>
    (match st.queue with
     | [] => (st, { w with pc := 4, fetched := none })
     | (_, j) :: _ => (st, { w with pc := 2, fetched := some j }))
  | 2 =>
    (match w.fetched with
     | some j => ({ st with queue := zremId j.id st.queue }, { w with pc := 3 })
     | none => (st, { w with pc := 4 }))
  | 3 =>
    (match w.fetched with
     | some j => ({ st with processing := hset st.processing j.id j }, { w with pc := 4 })
     | none => (st, { w with pc := 4 }))
  | _ => (st, w)

/-- Interleaved execution of two workers, driven by a schedule
(`true` = worker A takes the next atomic step). -/
def runSched (now : Int) : List Bool → RedisState × Worker × Worker →
    RedisState × Worker × Worker
  | [], s => s
  | b :: rest, (st, wa, wb) =>
    if b then
      let (st', wa') := workerStep now st wa
      runSched now rest (st', wa', wb)
    else
      let (st', wb') := workerStep now st wb
      runSched now rest (st', wa, wb')

/-! ### Workflow engine (`workflows/engine.ts`)

The engine's collaborators — the integration registry, the connection
store (Prisma) and the `function`-transform interpreter — are
parameters.  Persistence is modelled by returning the written records;
the per-step audit records (`StepLog`) are returned in step order, and the
accumulator value handed to each invoked step is returned as a ghost
trace. -/

/-- An `ActionError` of an `ActionResult`. -/
structure ActionError where
  code : String
  message : String
  details : JValue := jundef

/-- An `ActionResult` returned by a handler (`data` is `undefined` when
absent). -/
structure ActionResult where
  success : Bool
  data : JValue := jundef
  error : Option ActionError := none

/-- Connection credentials handed to a handler. -/
structure Credentials where
  type : String
  data : JValue

/-- An executable integration action: `execute(input, credentials, ...)`;
a thrown rejection is `Except.error`.  (The logging context argument is
not modelled: no modelled behaviour depends on it.) -/
abbrev Handler : Type := JValue → Credentials → Except String ActionResult

/-- A `WorkflowStep` as consumed by the engine. -/
structure WStep where
  id : String := ""
  name : String
  integration : String
  action : String
  connectionId : String
  mappings : List FieldMapping := []
  staticVals : Option (List (String × JValue)) := none
  continueOnError : Bool := false

/-- The engine's collaborators. -/
structure EngineEnv where
  registry : String → String → Option Handler
  connections : String → Option Credentials
  fnEval : FnEval

/-- A `StepLog` record as finalized by `executeStep` (the intermediate
`input` update and the error's stack trace are not modelled; `error`
holds the recorded error message). -/
structure StepLog where
  stepNumber : Nat
  stepName : String
  integration : String
  action : String
  status : String
  output : JValue := jundef
  error : Option String := none

/-- The body of `executeStep` inside its `try`: resolve the action
(throwing when absent), resolve the connection (throwing when absent),
apply the field mappings, invoke the handler. -/
def executeStepBody (env : EngineEnv) (step : WStep) (prev : JValue) :
    Except String ActionResult := do
  let action ← (match env.registry step.integration step.action with
    | some a => Except.ok a
    | none => Except.error ("Action " ++ step.action ++ " not found in integration " ++ step.integration) :
      Except String Handler)
  let conn ← (match env.connections step.connectionId with
    | some c => Except.ok c
    | none => Except.error ("Connection " ++ step.connectionId ++ " not found") :
      Except String Credentials)
  let mappedInput ← applyFieldMappings env.fnEval step.mappings prev (step.staticVals.getD [])
  action mappedInput conn

/-- Method `WorkflowEngine.executeStep`: any exception from the body is
caught and converted into a `{success:false, error:{code:"EXECUTION_ERROR",
message, details}}` result with the StepLog finalized `failed`; a returned
result finalizes the log `success`/`failed` by its `success` flag. -/
def executeStep (env : EngineEnv) (step : WStep) (stepNumber : Nat) (prev : JValue) :
    ActionResult × StepLog :=
  let base : StepLog :=
    { stepNumber, stepName := step.name, integration := step.integration,
      action := step.action, status := "running" }
  match executeStepBody env step prev with
  | .ok result =>
    (result,
      { base with status := if result.success then "success" else "failed",
                  output := result.data,
                  error := result.error.map (·.message) })
  | .error e =>
    ({ success := false, data := jundef,
       error := some { code := "EXECUTION_ERROR", message := e, details := jundef } },
      { base with status := "failed", error := some e })

/-- Outcome of the engine's step loop. -/
inductive RunOutcome where
  | completed (out : JValue)
  | aborted (stepNumber : Nat) (stepName code message : String)

/-- The engine's step loop: on success the accumulator becomes the step's
output; on failure with `continueOnError` the accumulator is left
unchanged and the loop continues; on failure otherwise the loop aborts
with the structured error.  Also returns the StepLogs in order and the
accumulator value passed to each invoked step. -/
def runSteps (env : EngineEnv) :
    List WStep → Nat → JValue → RunOutcome × List StepLog × List JValue
  | [], _, data => (.completed data, [], [])
  | s :: rest, n, data =>
    let (res, log) := executeStep env s n data
    if res.success then
      let (o, logs, ins) := runSteps env rest (n + 1) res.data
      (o, log :: logs, data :: ins)
    else if s.continueOnError then
      let (o, logs, ins) := runSteps env rest (n + 1) data
      (o, log :: logs, data :: ins)
    else
      let code := match res.error with
        | some e => if e.code = "" then "STEP_FAILED" else e.code
        | none => "STEP_FAILED"
      let msg := match res.error with
        | some e => if e.message = "" then "Step execution failed" else e.message
        | none => "Step execution failed"
      (.aborted n s.name code msg, [log], [data])

/-- Structured error written on the Execution record. -/
structure ExecError where
  stepNumber : Option Nat := none
  stepName : Option String := none
  code : String
  message : String

/-- The Execution record as last written (`thrown` models the outer
catch's final `{message}` overwrite of the error column). -/
structure ExecRecord where
  status : String
  outputPayload : Option JValue := none
  errorInfo : Option ExecError := none
  thrown : Option String := none

/-- Method `WorkflowEngine.executeWorkflow`: load the definition (a missing
workflow marks the Execution failed with `WORKFLOW_NOT_FOUND` and
throws), run the steps, and finalize the Execution `success` with the
final accumulator as output payload, or `failed` (an aborting step's
structured error is then overwritten by the outer catch with the thrown
message) with the error rethrown.  Returns the Execution record, the
StepLogs, the per-step accumulator trace, and the returned/ thrown
outcome. -/
def executeWorkflow (env : EngineEnv) (workflows : String → Option (List WStep))
    (workflowId : String) (triggerPayload : JValue) :
    ExecRecord × List StepLog × List JValue × Except String JValue :=
  match workflows workflowId with
  | none =>
    ({ status := "failed",
       errorInfo := some { code := "WORKFLOW_NOT_FOUND", message := "Workflow not found" } },
      [], [], .error "Workflow not found")
  | some steps =>
    match runSteps env steps 1 triggerPayload with
    | (.completed out, logs, ins) =>
      ({ status := "success", outputPayload := some out }, logs, ins, .ok out)
    | (.aborted n nm code msg, logs, ins) =>
      let thrownMsg := "Step " ++ toString n ++ " failed: " ++ msg
      ({ status := "failed",
         errorInfo := some { stepNumber := some n, stepName := some nm, code, message := msg },
         thrown := some thrownMsg },
        logs, ins, .error thrownMsg)

/-- A handler that succeeds, echoing its mapped input as output. -/
def okHandler : Handler := fun input _ => .ok { success := true, data := input }

/-- A handler that returns a failed `ActionResult`. -/
def failHandler : Handler := fun _ _ =>
  .ok { success := false, data := jundef,
        error := some { code := "BOOM", message := "downstream failed", details := jundef } }

/-- A concrete engine environment: integration `svc` with actions `ok` and
`fail`, one connection `conn1`, identity `function`-transform oracle. -/
def sampleEnv : EngineEnv :=
  { registry := fun slug act =>
      if slug = "svc" ∧ act = "ok" then some okHandler
      else if slug = "svc" ∧ act = "fail" then some failHandler
      else none,
    connections := fun cid =>
      if cid = "conn1" then some { type := "api_key", data := jnull } else none,
    fnEval := fun v _ _ => .ok v }

/-- A step whose only field mapping writes to the root target `$`, so the
mapping engine throws. -/
def stepBadMapping : WStep :=
  { name := "bad", integration := "svc", action := "ok", connectionId := "conn1",
    mappings := [{ source := "$", target := "$" }] }

/-- A succeeding first step. -/
def stepOkA : WStep :=
  { name := "one", integration := "svc", action := "ok", connectionId := "conn1" }

/-- A failing middle step with `continueOnError`. -/
def stepFailB : WStep :=
  { name := "two", integration := "svc", action := "fail", connectionId := "conn1",
    continueOnError := true }

/-- A succeeding last step. -/
def stepOkC : WStep :=
  { name := "three", integration := "svc", action := "ok", connectionId := "conn1" }

/-! ### Validator (`workflows/validator.ts`) -/

/-- A validation issue (error or warning): path, message, code. -/
structure VIssue where
  path : String
  message : String
  code : String
  deriving DecidableEq

/-- The integration registry as seen by the validator: per-slug existence
of triggers and actions. -/
structure VIntegration where
  triggers : String → Bool
  actions : String → Bool

/-- Registry lookup (`integrationRegistry.get`). -/
abbrev VRegistry : Type := String → Option VIntegration

/-- A step as inspected by the validator.  Falsiness of the string fields
is emptiness; `input` and `mappings` are `Option`s to distinguish a
missing object from an empty list; `retry` carries `maxAttempts`. -/
structure VStep where
  id : String := ""
  integration : String := ""
  action : String := ""
  mappings : Option (Option (List FieldMapping)) := none
  retry : Option Int := none

/-- A workflow trigger descriptor as inspected by the validator. -/
structure VTrigger where
  integration : String := ""
  trigger : String := ""

/-- Workflow settings as inspected by the validator. -/
structure VSettings where
  timeout : Option Int := none
  concurrency : Option Int := none

/-- A workflow definition as inspected by the validator. -/
structure VWorkflow where
  version : String := ""
  trigger : Option VTrigger := none
  steps : List VStep := []
  settings : Option VSettings := none

/-- The `ValidationResult` of `validator.ts`. -/
structure ValidationResult where
  valid : Bool
  errors : List VIssue
  warnings : List VIssue
  deriving DecidableEq

/-- Function `validateTrigger` of `validator.ts` (errors produced; it never
produces warnings). -/
def validateTrigger (reg : VRegistry) (t : VTrigger) : List VIssue :=
  if t.integration = "" then
    [⟨"trigger.integration", "Trigger integration is required", "MISSING_INTEGRATION"⟩]
  else if t.trigger = "" then
    [⟨"trigger.trigger", "Trigger type is required", "MISSING_TRIGGER_TYPE"⟩]
  else
    match reg t.integration with
    | none =>
      [⟨"trigger.integration", "Integration '" ++ t.integration ++ "' not found",
        "INTEGRATION_NOT_FOUND"⟩]
    | some i =>
      if i.triggers t.trigger then []
      else
        [⟨"trigger.trigger",
          "Trigger '" ++ t.trigger ++ "' not found in integration '" ++ t.integration ++ "'",
          "TRIGGER_NOT_FOUND"⟩]

/-- Function `validateStep` of `validator.ts`: errors and warnings for one
step, mirroring the code's early returns (a missing integration, missing
action or unresolvable integration stops the remaining checks). -/
def validateStep (reg : VRegistry) (s : VStep) (index : Nat) :
    List VIssue × List VIssue :=
  let basePath := "steps[" ++ toString index ++ "]"
  let idErrs :=
    if s.id = "" then
      [⟨basePath ++ ".id", "Step ID is required", "MISSING_STEP_ID"⟩]
    else []
  if s.integration = "" then
    (idErrs ++ [⟨basePath ++ ".integration", "Step integration is required",
      "MISSING_INTEGRATION"⟩], [])
  else if s.action = "" then
    (idErrs ++ [⟨basePath ++ ".action", "Step action is required", "MISSING_ACTION"⟩], [])
  else
    match reg s.integration with
    | none =>
      (idErrs ++ [⟨basePath ++ ".integration",
        "Integration '" ++ s.integration ++ "' not found", "INTEGRATION_NOT_FOUND"⟩], [])
    | some integ =>
      let actionErrs :=
        if integ.actions s.action then []
        else
          [⟨basePath ++ ".action",
            "Action '" ++ s.action ++ "' not found in integration '" ++ s.integration ++ "'",
            "ACTION_NOT_FOUND"⟩]
      let inputWarns :=
        match s.mappings with
        | none =>
          [⟨basePath ++ ".input", "Step has no input configuration", "NO_INPUT"⟩]
        | some none =>
          [⟨basePath ++ ".input.mappings", "Step has no field mappings", "NO_MAPPINGS"⟩]
        | some (some []) =>
          [⟨basePath ++ ".input.mappings", "Step has no field mappings", "NO_MAPPINGS"⟩]
        | some (some (_ :: _)) => []
      let retryErrs :=
        match s.retry with
        | none => []
        | some ma =>
          if ma < 0 then
            [⟨basePath ++ ".retry.maxAttempts", "Retry maxAttempts must be >= 0",
              "INVALID_RETRY_ATTEMPTS"⟩]
          else []
      (idErrs ++ actionErrs ++ retryErrs, inputWarns)

/-- Function `validateSettings` of `validator.ts` (truthiness quirk kept: a
zero timeout or concurrency skips its check). -/
def validateSettings (s : VSettings) : List VIssue :=
  (match s.timeout with
   | some t =>
     if t ≠ 0 ∧ t < 0 then
       [⟨"settings.timeout", "Timeout must be >= 0", "INVALID_TIMEOUT"⟩]
     else []
   | none => []) ++
  (match s.concurrency with
   | some c =>
     if c ≠ 0 ∧ c < 1 then
       [⟨"settings.concurrency", "Concurrency must be >= 1", "INVALID_CONCURRENCY"⟩]
     else []
   | none => [])

/-- A sample registry with one integration (`slack`), one trigger
(`message`) and one action (`send`). -/
def sampleRegistry : VRegistry := fun slug =>
  if slug = "slack" then
    some { triggers := fun t => t = "message", actions := fun a => a = "send" }
  else none

/-- A step that resolves in `sampleRegistry` but has no input
configuration at all. -/
def stepNoInput : VStep :=
  { id := "s1", integration := "slack", action := "send", mappings := none }

/-- A step that resolves in `sampleRegistry` and has an input whose
mappings list is empty. -/
def stepEmptyMappings : VStep :=
  { id := "s1", integration := "slack", action := "send", mappings := some (some []) }

/-- An otherwise-valid workflow whose only defect is a step without any
input configuration. -/
def wfNoInput : VWorkflow :=
  { version := "1",
    trigger := some { integration := "slack", trigger := "message" },
    steps := [stepNoInput] }

/-- An otherwise-valid workflow whose only defect is a step with empty
mappings. -/
def wfEmptyMappings : VWorkflow :=
  { version := "1",
    trigger := some { integration := "slack", trigger := "message" },
    steps := [stepEmptyMappings] }

/-- Function `validateWorkflow` of `validator.ts`. -/
def validateWorkflow (reg : VRegistry) (wf : VWorkflow) : ValidationResult :=
  let versionErrs :=
    if wf.version = "" then
      [⟨"version", "Workflow version is required", "MISSING_VERSION"⟩]
    else []
  let triggerErrs :=
    match wf.trigger with
    | none => [⟨"trigger", "Workflow trigger is required", "MISSING_TRIGGER"⟩]
    | some t => validateTrigger reg t
  let stepResults : List VIssue × List VIssue :=
    match wf.steps with
    | [] => ([⟨"steps", "Workflow must have at least one step", "NO_STEPS"⟩], [])
    | _ :: _ =>
      ((wf.steps.enum.map fun p => validateStep reg p.2 p.1).foldl
        (fun (acc : List VIssue × List VIssue) p => (acc.1 ++ p.1, acc.2 ++ p.2)) ([], []))
  let settingsErrs :=
    match wf.settings with
    | some s => validateSettings s
    | none => []
  let errors := versionErrs ++ triggerErrs ++ stepResults.1 ++ settingsErrs
  { valid := errors.length = 0, errors := errors, warnings := stepResults.2 }

end RuleEngine

namespace RuleEngine

open JValue

example : extractValue (jobj [("a", jnum 5), ("other", jstr "x")]) "$.a" = jnum 5 := rfl

example : setValue (jobj [("keep", jstr "y")]) "$.b" (jnum 5)
    = .ok (jobj [("keep", jstr "y"), ("b", jnum 5)]) := rfl

example :
    applyFieldMappings (fun v _ _ => .ok v) [{source := "$.a", target := "$.b"}]
      (jobj [("a", jnum 5), ("other", jstr "x")]) [("keep", jstr "y")]
    = .ok (jobj [("keep", jstr "y"), ("b", jnum 5)]) := rfl

example :
    applyTemplate "\x7b\x7b$.name\x7d\x7d is \x7b\x7b$.age\x7d\x7d" (jobj [("name", jstr "Ann"), ("age", jnum 30)])
    = "Ann is 30" := rfl

example : applyTemplate "\x7b\x7b$.missing\x7d\x7d" (jobj []) = "\x7b\x7b$.missing\x7d\x7d" := rfl

example : jsonParse "\x7b\"a\": [1, -2, \"x\"]\x7d"
    = .ok (jobj [("a", jarr [jnum 1, jnum (-2), jstr "x"])]) := rfl

example : formatNumber (jnum 1234) (jobj []) = .ok (jstr "1,234.00") := rfl

example : formatNumber (jstr "abc") (jobj [])
    = .error "Invalid number: abc" := rfl

/-! ## Claims -/

/-- C10: for every jobId not present in the in-flight registry,
`fail(jobId, error)` is a no-op: it leaves the ready set, delayed set,
in-flight registry and dead-letter store unchanged, performs no retry and
no dead-lettering, and returns without raising. -/
theorem failJob_missing_noop (now : Int) (jobId errMessage errStack : String)
    (st : RedisState) (h : hget st.processing jobId = none) :
    failJob now jobId errMessage errStack st = st := by
  simp only [failJob, h]

/-- Witness for C10 at a concrete state with an empty in-flight registry. -/
theorem failJob_missing_noop_witness :
    hget ({ } : RedisState).processing "j1" = none ∧
    failJob 0 "j1" "boom" "stacktrace" ({ } : RedisState) = ({ } : RedisState) :=
  ⟨rfl, failJob_missing_noop 0 "j1" "boom" "stacktrace" { } rfl⟩

/-- C3: for every job present in the in-flight registry, fail increments
retryCount; while the incremented count is still below maxRetries
(default 3 when the field is falsy) the job is removed from in-flight and
re-inserted into the delayed set with score `now + 2^retryCount` seconds;
otherwise it is removed from in-flight and inserted, annotated with the
error's message, into the dead-letter store.  Moreover a fresh job
(retryCount 0, maxRetries 3, as enqueued) failing repeatedly is retried
on its first two failures (retryCount 1 and 2) and dead-lettered on the
third with retryCount = maxRetries = 3 exactly. -/
theorem failJob_retry_spec :
    (∀ (now : Int) (jobId errMessage errStack : String) (st : RedisState) (job : QJob),
      hget st.processing jobId = some job →
      (job.retryCount + 1 < (if job.maxRetries = 0 then 3 else job.maxRetries) →
        failJob now jobId errMessage errStack st =
          { st with processing := hdel st.processing jobId,
                    scheduled := zInsert (now + 2 ^ (job.retryCount + 1) * 1000)
                      { job with retryCount := job.retryCount + 1 } st.scheduled }) ∧
      (job.retryCount + 1 ≥ (if job.maxRetries = 0 then 3 else job.maxRetries) →
        failJob now jobId errMessage errStack st =
          { st with processing := hdel st.processing jobId,
                    deadletter := zInsert now
                      { job with retryCount := job.retryCount + 1,
                                 errMessage := some errMessage,
                                 errStack := some errStack } st.deadletter })) ∧
    (let st0 := (enqueueWorkflow 0 "j1" "wf" "org" jnull "manual" none none { }).2
     let st1 := (dequeueJob 0 st0).2
     let st2 := failJob 0 "j1" "e1" "s1" st1
     let st3 := (dequeueJob 10000 st2).2
     let st4 := failJob 10000 "j1" "e2" "s2" st3
     let st5 := (dequeueJob 100000 st4).2
     let st6 := failJob 100000 "j1" "e3" "s3" st5
     ((dequeueJob 0 st0).1.map QJob.retryCount = some 0) ∧
     (st2.scheduled.map (fun e => (e.1, e.2.retryCount)) = [(2000, 1)] ∧
       st2.processing = [] ∧ st2.deadletter = []) ∧
     ((dequeueJob 10000 st2).1.map QJob.retryCount = some 1) ∧
     (st4.scheduled.map (fun e => (e.1, e.2.retryCount)) = [(14000, 2)] ∧
       st4.processing = [] ∧ st4.deadletter = []) ∧
     ((dequeueJob 100000 st4).1.map QJob.retryCount = some 2) ∧
     (st6.deadletter.map (fun e => (e.2.retryCount, e.2.maxRetries, e.2.errMessage))
        = [(3, 3, some "e3")] ∧
       st6.processing = [] ∧ st6.scheduled = [] ∧ st6.queue = [])) := by
  constructor
  · intro now jobId errMessage errStack st job h
    constructor
    · intro hlt
      simp only [failJob, h]
      rw [if_pos hlt]
    · intro hge
      simp only [failJob, h]
      rw [if_neg (by omega)]
  · exact ⟨rfl, ⟨rfl, rfl, rfl⟩, rfl, ⟨rfl, rfl, rfl⟩, rfl, ⟨rfl, rfl, rfl, rfl⟩⟩

/-- Witness for C3's retry branch at a concrete in-flight job. -/
theorem failJob_retry_witness :
    hget ({ processing := [("j1", sampleJob)] } : RedisState).processing "j1"
      = some sampleJob ∧
    sampleJob.retryCount + 1 < (if sampleJob.maxRetries = 0 then 3 else sampleJob.maxRetries) ∧
    failJob 5 "j1" "boom" "stacktrace" { processing := [("j1", sampleJob)] } =
      { processing := hdel [("j1", sampleJob)] "j1",
        scheduled := zInsert (5 + 2 ^ (sampleJob.retryCount + 1) * 1000)
          { sampleJob with retryCount := sampleJob.retryCount + 1 } [] } :=
  ⟨rfl, by decide,
    (failJob_retry_spec.1 5 "j1" "boom" "stacktrace"
      { processing := [("j1", sampleJob)] } sampleJob rfl).1 (by decide)⟩

/-! Helper lemmas about the sorted-set operations, used for the dequeue
claims. -/

/-- Entries of `zInsert` are a permutation of consing the new entry. -/
theorem zInsert_perm (s : Int) (j : QJob) (l : List (Int × QJob)) :
    (zInsert s j l).Perm ((s, j) :: l) := by
  induction l with
  | nil => simp [zInsert]
  | cons hd tl ih =>
    obtain ⟨hs, hm⟩ := hd
    simp only [zInsert]
    split
    · exact List.Perm.refl _
    · split
      · exact List.Perm.refl _
      · exact (ih.cons _).trans (List.Perm.swap _ _ _)

/-- Ids of `zInsert` are a permutation of consing the new id. -/
theorem zInsert_ids_perm (s : Int) (j : QJob) (l : List (Int × QJob)) :
    ((zInsert s j l).map (fun e => e.2.id)).Perm
      (j.id :: l.map (fun e => e.2.id)) :=
  (zInsert_perm s j l).map _

/-- Ids after folding `zInsert` over a batch of promoted entries. -/
theorem foldl_zInsert_ids_perm (now : Int) (l q : List (Int × QJob)) :
    ((l.foldl (fun q e => zInsert (now - e.2.priority * 1000000) e.2 q) q).map
        (fun e => e.2.id)).Perm
      (l.map (fun e => e.2.id) ++ q.map (fun e => e.2.id)) := by
  induction l generalizing q with
  | nil => simp
  | cons hd tl ih =>
    simp only [List.foldl_cons, List.map_cons]
    refine (ih _).trans ?_
    refine ((List.Perm.append_left _ (zInsert_ids_perm _ _ _)).trans ?_)
    exact List.perm_middle.trans (List.Perm.refl _)

/-- Promotion of due delayed jobs permutes, but does not change, the set of
ids across the ready and delayed sets. -/
theorem moveScheduled_ids_perm (now : Int) (st : RedisState) :
    (allIds (moveScheduled now st)).Perm (allIds st) := by
  unfold allIds moveScheduled
  simp only [decide_not]
  refine ((foldl_zInsert_ids_perm now _ _).append_right _).trans ?_
  have hfilter :
      ((st.scheduled.filter fun e => decide (e.1 ≤ now)).map (fun e => e.2.id) ++
        (st.scheduled.filter fun e => !decide (e.1 ≤ now)).map (fun e => e.2.id)).Perm
        (st.scheduled.map (fun e => e.2.id)) := by
    rw [← List.map_append]
    exact List.Perm.map _ (List.filter_append_perm _ st.scheduled)
  have hshuffle :
      (((st.scheduled.filter fun e => decide (e.1 ≤ now)).map (fun e => e.2.id) ++
          st.queue.map (fun e => e.2.id)) ++
        (st.scheduled.filter fun e => !decide (e.1 ≤ now)).map (fun e => e.2.id)).Perm
      (st.queue.map (fun e => e.2.id) ++
        ((st.scheduled.filter fun e => decide (e.1 ≤ now)).map (fun e => e.2.id) ++
          (st.scheduled.filter fun e => !decide (e.1 ≤ now)).map (fun e => e.2.id))) := by
    refine ((List.perm_append_comm.append_right _).trans ?_)
    rw [List.append_assoc]
  exact hshuffle.trans (List.Perm.append_left _ hfilter)

/-- The removed id is gone from the ready set. -/
theorem not_mem_zremId_ids (i : String) (l : List (Int × QJob)) :
    i ∉ (zremId i l).map (fun e => e.2.id) := by
  simp [zremId, List.mem_map, List.mem_filter]

/-- Keys stay sorted under `zInsert`. -/
theorem zInsert_sorted (s : Int) (j : QJob) (l : List (Int × QJob))
    (h : l.Pairwise (fun a b => a.1 ≤ b.1)) :
    (zInsert s j l).Pairwise (fun a b => a.1 ≤ b.1) := by
  induction l with
  | nil => simp [zInsert]
  | cons hd tl ih =>
    obtain ⟨hs, hm⟩ := hd
    obtain ⟨hhd, htl⟩ := List.pairwise_cons.mp h
    simp only [zInsert]
    split
    · rename_i hlt
      refine List.pairwise_cons.mpr ⟨?_, h⟩
      intro b hb
      rcases List.mem_cons.mp hb with rfl | hb'
      · exact le_of_lt hlt
      · exact le_trans (le_of_lt hlt) (hhd b hb')
    · split
      · rename_i hnlt heq
        refine List.pairwise_cons.mpr ⟨?_, h⟩
        intro b hb
        rcases List.mem_cons.mp hb with rfl | hb'
        · exact le_of_eq heq.1
        · rw [show ((s, j) : Int × QJob).1 = s from rfl, heq.1]
          exact hhd b hb'
      · rename_i hnlt hne
        refine List.pairwise_cons.mpr ⟨?_, ih htl⟩
        intro b hb
        rcases List.mem_cons.mp ((zInsert_perm s j tl).mem_iff.mp hb) with rfl | hb'
        · exact le_of_not_lt hnlt
        · exact hhd b hb'

/-- Keys stay sorted under the promotion fold. -/
theorem foldl_zInsert_sorted (now : Int) (l q : List (Int × QJob))
    (h : q.Pairwise (fun a b => a.1 ≤ b.1)) :
    ((l.foldl (fun q e => zInsert (now - e.2.priority * 1000000) e.2 q) q)).Pairwise
      (fun a b => a.1 ≤ b.1) := by
  induction l generalizing q with
  | nil => exact h
  | cons hd tl ih => exact ih _ (zInsert_sorted _ _ _ h)

/-- The promoted ready set stays key-sorted. -/
theorem moveScheduled_sorted (now : Int) (st : RedisState)
    (h : st.queue.Pairwise (fun a b => a.1 ≤ b.1)) :
    (moveScheduled now st).queue.Pairwise (fun a b => a.1 ≤ b.1) :=
  foldl_zInsert_sorted now _ _ h

/-- Reading back the job just written in-flight. -/
theorem hget_hset_self (l : List (String × QJob)) (k : String) (j : QJob) :
    hget (hset l k j) k = some j := by
  induction l with
  | nil => simp [hset, hget]
  | cons hd tl ih =>
    obtain ⟨k', j'⟩ := hd
    by_cases hk : k' = k
    · simp [hset, hget, hk]
    · simp [hset, hget, hk, ih]

/-- Anatomy of a completed dequeue that returned a job. -/
theorem dequeue_some_head {now : Int} {st st' : RedisState} {j : QJob}
    (h : dequeueJob now st = (some j, st')) :
    ∃ s tail, (moveScheduled now st).queue = (s, j) :: tail ∧
      st' = { moveScheduled now st with
              queue := zremId j.id (moveScheduled now st).queue,
              processing := hset (moveScheduled now st).processing j.id j } := by
  simp only [dequeueJob] at h
  cases hq : (moveScheduled now st).queue with
  | nil => rw [hq] at h; simp at h
  | cons hd tail =>
    obtain ⟨s, m⟩ := hd
    rw [hq] at h
    simp only [Prod.mk.injEq, Option.some.injEq] at h
    obtain ⟨h1, h2⟩ := h
    subst h1
    refine ⟨s, tail, rfl, ?_⟩
    rw [← h2]

/-! C4. -/

/-- C4 counterexample: `dequeueJob`'s read, remove and register are
separate Redis calls, not an atomic move.  Under the interleaving
A(promote), A(read), B(promote), B(read), A(remove), A(register),
B(remove), B(register) of two concurrent dequeues on a one-job ready set,
both workers complete their runs and both return the same job — at most
one worker per job does not hold under every interleaving. -/
theorem dequeueJob_not_atomic_counterexample :
    (runSched 0 [true, true, false, false, true, true, false, false]
        ({ queue := [(0, sampleJob)] }, { }, { })).2.1.pc = 4 ∧
    (runSched 0 [true, true, false, false, true, true, false, false]
        ({ queue := [(0, sampleJob)] }, { }, { })).2.2.pc = 4 ∧
    (runSched 0 [true, true, false, false, true, true, false, false]
        ({ queue := [(0, sampleJob)] }, { }, { })).2.1.fetched.map QJob.id
      = some "j1" ∧
    (runSched 0 [true, true, false, false, true, true, false, false]
        ({ queue := [(0, sampleJob)] }, { }, { })).2.2.fetched.map QJob.id
      = some "j1" :=
  ⟨rfl, rfl, rfl, rfl⟩

/-- C4 amended: a completed `dequeueJob` run removes a minimal-key ready
job (after promotion) from the ready set and records it in the in-flight
registry, and when dequeue runs are serialized — run to completion one at
a time, the regime in which the sequence of Redis calls behaves as a
single move — each job is returned to at most one worker: two successive
dequeues on an id-distinct state never return the same job.  (The
atomicity of the move itself, and hence at-most-one-owner under
arbitrary interleavings, fails: see the counterexample.) -/
theorem dequeueJob_serialized_spec
    {j1 j2 : QJob} {st1 st2 : RedisState} {r2 : Option QJob}
    (now1 now2 : Int) (st : RedisState)
    (hnd : (allIds st).Nodup)
    (hsorted : st.queue.Pairwise (fun a b => a.1 ≤ b.1))
    (h1 : dequeueJob now1 st = (some j1, st1))
    (h2 : dequeueJob now2 st1 = (r2, st2))
    (h3 : r2 = some j2) :
    (∃ s, (s, j1) ∈ (moveScheduled now1 st).queue ∧
      ∀ e ∈ (moveScheduled now1 st).queue, s ≤ e.1) ∧
    st1.queue = zremId j1.id (moveScheduled now1 st).queue ∧
    hget st1.processing j1.id = some j1 ∧
    j2.id ≠ j1.id := by
  subst h3
  obtain ⟨s, tail, hq, hst1⟩ := dequeue_some_head h1
  have hsorted' := moveScheduled_sorted now1 st hsorted
  rw [hq] at hsorted'
  obtain ⟨hhead, _⟩ := List.pairwise_cons.mp hsorted'
  refine ⟨⟨s, by rw [hq]; exact List.mem_cons_self _ _, ?_⟩, ?_, ?_, ?_⟩
  · rw [hq]
    intro e he
    rcases List.mem_cons.mp he with rfl | he'
    · exact le_refl _
    · exact hhead e he'
  · rw [hst1]
  · rw [hst1]
    exact hget_hset_self _ _ _
  · -- after the first dequeue, `j1.id` is absent from both sets
    have hnd1 : (allIds (moveScheduled now1 st)).Nodup :=
      (moveScheduled_ids_perm now1 st).symm.nodup hnd
    have hmemq : j1.id ∈ (moveScheduled now1 st).queue.map (fun e => e.2.id) := by
      rw [hq]; exact List.mem_map.mpr ⟨(s, j1), List.mem_cons_self _ _, rfl⟩
    have hdisj :
        (moveScheduled now1 st).queue.map (fun e => e.2.id) |>.Disjoint
          ((moveScheduled now1 st).scheduled.map (fun e => e.2.id)) :=
      ((List.nodup_append.mp hnd1).2.2)
    have hnotin : j1.id ∉ allIds st1 := by
      rw [hst1]
      unfold allIds
      simp only []
      intro hmem
      rcases List.mem_append.mp hmem with hmem | hmem
      · exact not_mem_zremId_ids j1.id _ hmem
      · exact hdisj hmemq hmem
    -- the second dequeue returns a member of `allIds st1`
    obtain ⟨s2, tail2, hq2, _⟩ := dequeue_some_head h2
    have hmem2 : j2.id ∈ allIds (moveScheduled now2 st1) := by
      unfold allIds
      refine List.mem_append.mpr (Or.inl ?_)
      rw [hq2]
      exact List.mem_map.mpr ⟨(s2, j2), List.mem_cons_self _ _, rfl⟩
    have hmem2' : j2.id ∈ allIds st1 :=
      (moveScheduled_ids_perm now2 st1).mem_iff.mp hmem2
    intro heq
    rw [heq] at hmem2'
    exact hnotin hmem2'

/-- Witness for the amended C4 at a concrete two-job ready set. -/
theorem dequeueJob_serialized_witness :
    (allIds ({ queue := [(0, sampleJob), (1, sampleJob2)] } : RedisState)).Nodup ∧
    (({ queue := [(0, sampleJob), (1, sampleJob2)] } : RedisState)).queue.Pairwise
      (fun a b => a.1 ≤ b.1) ∧
    sampleJob2.id ≠ sampleJob.id := by
  refine ⟨by decide, by decide, ?_⟩
  exact (dequeueJob_serialized_spec 0 0
    { queue := [(0, sampleJob), (1, sampleJob2)] } (by decide) (by decide)
    rfl rfl rfl).2.2.2

/-- C5: two jobs enqueued at the same instant with priorities `p1 > p2` and
no `scheduledFor` (in either enqueue order, onto an empty queue): the
first dequeue deterministically returns the `p1` job, because the ready
order key is `now − priority·1,000,000` and dequeue takes the lowest
key. -/
theorem enqueue_priority_dequeue_spec
    (now now2 p1 p2 : Int) (id1 id2 wf1 wf2 org1 org2 src1 src2 : String)
    (pay1 pay2 : JValue) (hp : p2 < p1) :
    ((dequeueJob now2
        (enqueueWorkflow now id2 wf2 org2 pay2 src2 (some p2) none
          (enqueueWorkflow now id1 wf1 org1 pay1 src1 (some p1) none
            ({ } : RedisState)).2).2).1.map QJob.id = some id1) ∧
    ((dequeueJob now2
        (enqueueWorkflow now id1 wf1 org1 pay1 src1 (some p1) none
          (enqueueWorkflow now id2 wf2 org2 pay2 src2 (some p2) none
            ({ } : RedisState)).2).2).1.map QJob.id = some id1) := by
  have h1 : ¬ (now - p2 * 1000000 < now - p1 * 1000000) := by omega
  have h2 : p2 ≠ p1 := by omega
  have h3 : now - p1 * 1000000 < now - p2 * 1000000 := by omega
  constructor
  · simp [enqueueWorkflow, dequeueJob, moveScheduled, zInsert, h1, h2]
  · simp [enqueueWorkflow, dequeueJob, moveScheduled, zInsert, h3]

/-- Witness for C5 at concrete priorities 5 > 1. -/
theorem enqueue_priority_dequeue_witness :
    ((1 : Int) < 5) ∧
    ((dequeueJob 7
        (enqueueWorkflow 3 "jb" "wfb" "orgb" jnull "manual" (some 1) none
          (enqueueWorkflow 3 "ja" "wfa" "orga" jnull "manual" (some 5) none
            ({ } : RedisState)).2).2).1.map QJob.id = some "ja") :=
  ⟨by norm_num,
    (enqueue_priority_dequeue_spec 3 7 5 1 "ja" "jb" "wfa" "wfb" "orga" "orgb"
      "manual" "manual" jnull jnull (by norm_num)).1⟩

/-! Helper lemmas about the keys written by the mapping engine. -/

/-- Keys after an association-list write. -/
theorem assocSet_keys (fs : List (String × JValue)) (k : String) (v : JValue) :
    ∀ a, a ∈ (assocSet fs k v).map Prod.fst ↔ a ∈ fs.map Prod.fst ∨ a = k := by
  induction fs with
  | nil => intro a; simp [assocSet]
  | cons hd rest ih =>
    obtain ⟨k', v'⟩ := hd
    intro a
    by_cases hk : k' = k
    · subst hk
      simp [assocSet]
      tauto
    · simp [assocSet, hk, ih a]
      tauto

/-- A top-level write into an object yields an object whose keys are the old
keys plus the head segment of the written path. -/
theorem setPath_jobj_keys (fs : List (String × JValue)) (segs : List String)
    (v : JValue) :
    ∃ gs, setPath (jobj fs) segs v = jobj gs ∧
      ∀ a, a ∈ gs.map Prod.fst ↔ a ∈ fs.map Prod.fst ∨ segs.head? = some a := by
  match segs with
  | [] => exact ⟨fs, rfl, fun a => by simp⟩
  | [k] =>
    refine ⟨assocSet fs k v, rfl, fun a => ?_⟩
    rw [assocSet_keys]
    simp [eq_comm]
  | k :: k2 :: rest =>
    refine ⟨_, rfl, fun a => ?_⟩
    rw [assocSet_keys]
    simp [eq_comm]

/-- Bind of a successful `Except` computation. -/
theorem exc_bind_ok {ε α β : Type} (a : α) (f : α → Except ε β) :
    (Except.ok a : Except ε α) >>= f = f a := rfl

/-- Bind of a failed `Except` computation. -/
theorem exc_bind_error {ε α β : Type} (e : ε) (f : α → Except ε β) :
    (Except.error e : Except ε α) >>= f = Except.error e := rfl

/-- Keys produced by the mapping loop over an object accumulator. -/
theorem applyMappingsGo_keys (fnEval : FnEval) (src : JValue) :
    ∀ (mappings : List FieldMapping) (fs : List (String × JValue)) (out : JValue),
      applyMappingsGo fnEval mappings src (jobj fs) = .ok out →
      ∃ gs, out = jobj gs ∧
        ∀ a, a ∈ gs.map Prod.fst ↔ a ∈ fs.map Prod.fst ∨
          ∃ mp ∈ mappings, (parsePath (stripRoot mp.target)).head? = some a := by
  intro mappings
  induction mappings with
  | nil =>
    intro fs out h
    simp only [applyMappingsGo] at h
    cases h
    exact ⟨fs, rfl, fun a => by simp⟩
  | cons mp rest ih =>
    intro fs out h
    simp only [applyMappingsGo] at h
    have key : ∀ v : JValue,
        (setValue (jobj fs) mp.target v >>= fun acc' =>
          applyMappingsGo fnEval rest src acc') = .ok out →
        ∃ gs, out = jobj gs ∧
          ∀ a, a ∈ gs.map Prod.fst ↔ a ∈ fs.map Prod.fst ∨
            ∃ m ∈ mp :: rest, (parsePath (stripRoot m.target)).head? = some a := by
      intro v hbind
      by_cases htgt : mp.target = "$"
      · simp only [setValue, if_pos htgt, exc_bind_error] at hbind
        cases hbind
      · simp only [setValue, if_neg htgt, exc_bind_ok] at hbind
        obtain ⟨gs1, heq, hkeys1⟩ :=
          setPath_jobj_keys fs (parsePath (stripRoot mp.target)) v
        rw [heq] at hbind
        obtain ⟨gs, hout, hkeys⟩ := ih gs1 out hbind
        refine ⟨gs, hout, fun a => ?_⟩
        rw [hkeys a, hkeys1 a]
        constructor
        · rintro ((hfs | hhead) | ⟨m, hm, hh⟩)
          · exact Or.inl hfs
          · exact Or.inr ⟨mp, List.mem_cons_self _ _, hhead⟩
          · exact Or.inr ⟨m, List.mem_cons_of_mem _ hm, hh⟩
        · rintro (hfs | ⟨m, hm, hh⟩)
          · exact Or.inl (Or.inl hfs)
          · rcases List.mem_cons.mp hm with rfl | hm'
            · exact Or.inl (Or.inr hh)
            · exact Or.inr ⟨m, hm', hh⟩
    cases htr : mp.transform with
    | none =>
      simp only [htr, exc_bind_ok] at h
      exact key _ h
    | some t =>
      simp only [htr] at h
      cases happ : applyTransform fnEval (extractValue src mp.source) t src with
      | error e => rw [happ, exc_bind_error] at h; cases h
      | ok v => rw [happ, exc_bind_ok] at h; exact key v h

/-- C1: for every mappings list, source document and staticValues map, a
successful `applyFieldMappings` yields an object whose keys are exactly
the keys of the shallow copy of `staticValues` plus the head fields
written by the mappings' target paths — in particular no field of the
source document that is neither a static key nor a target field appears.
Concretely, `apply([{source:"$.a", target:"$.b"}], {a:5, other:"x"},
{keep:"y"})` returns `{keep:"y", b:5}` and the unmapped field `other`
does not leak. -/
theorem applyFieldMappings_keys_spec :
    (∀ (fnEval : FnEval) (mappings : List FieldMapping) (src : JValue)
      (staticValues : List (String × JValue)) (out : JValue),
      applyFieldMappings fnEval mappings src staticValues = .ok out →
      ∃ fields, out = jobj fields ∧
        ∀ k, k ∈ fields.map Prod.fst ↔
          (k ∈ staticValues.map Prod.fst ∨
            ∃ mp ∈ mappings, (parsePath (stripRoot mp.target)).head? = some k)) ∧
    applyFieldMappings (fun v _ _ => .ok v) [{source := "$.a", target := "$.b"}]
        (jobj [("a", jnum 5), ("other", jstr "x")]) [("keep", jstr "y")]
      = .ok (jobj [("keep", jstr "y"), ("b", jnum 5)]) := by
  constructor
  · intro fnEval mappings src staticValues out h
    exact applyMappingsGo_keys fnEval src mappings staticValues out h
  · rfl

/-- Witness for C1: the general key description applied at the concrete
example. -/
theorem applyFieldMappings_keys_witness :
    (applyFieldMappings (fun v _ _ => .ok v) [{source := "$.a", target := "$.b"}]
        (jobj [("a", jnum 5), ("other", jstr "x")]) [("keep", jstr "y")]
      = .ok (jobj [("keep", jstr "y"), ("b", jnum 5)])) ∧
    (∃ fields, (jobj [("keep", jstr "y"), ("b", jnum 5)] : JValue) = jobj fields ∧
      ∀ k, k ∈ fields.map Prod.fst ↔
        (k ∈ [("keep", (jstr "y" : JValue))].map Prod.fst ∨
          ∃ mp ∈ [({source := "$.a", target := "$.b"} : FieldMapping)],
            (parsePath (stripRoot mp.target)).head? = some k)) :=
  ⟨rfl, applyFieldMappings_keys_spec.1 (fun v _ _ => .ok v)
    [{source := "$.a", target := "$.b"}]
    (jobj [("a", jnum 5), ("other", jstr "x")]) [("keep", jstr "y")]
    (jobj [("keep", jstr "y"), ("b", jnum 5)]) rfl⟩

/-! Helper lemmas for the template scanner. -/

/-- String concatenation acts on the underlying characters. -/
theorem str_data_append (s t : String) : (s ++ t).data = s.data ++ t.data := by
  cases s; cases t; rfl

/-- The scanner leaves an empty input empty, for any fuel. -/
theorem templateGo_nil (doc : JValue) (fuel : Nat) : templateGo doc fuel [] = [] := by
  cases fuel <;> rfl

/-- A placeholder body free of closing braces is taken whole. -/
theorem takeWhile_body (p : List Char) (h : ∀ c ∈ p, c ≠ '}') :
    (p ++ ['}', '}']).takeWhile (fun c => c ≠ '}') = p := by
  induction p with
  | nil => rfl
  | cons c rest ih =>
    have hc : c ≠ '}' := h c (List.mem_cons_self _ _)
    simp only [List.cons_append, List.takeWhile_cons]
    rw [if_pos (by simpa using hc)]
    rw [ih (fun x hx => h x (List.mem_cons_of_mem _ hx))]

/-- C6: a `{{path}}` placeholder whose brace-free path resolves to a defined
value is replaced by that value's string form, and is left literal when
the path resolves to `undefined`; concretely
`template("{{$.name}} is {{$.age}}")` over `{name:"Ann", age:30}` is
`"Ann is 30"` and `template("{{$.missing}}")` over `{}` stays
`"{{$.missing}}"`. -/
theorem applyTemplate_spec :
    (∀ (p : String) (doc : JValue), p.data ≠ [] → (∀ c ∈ p.data, c ≠ '}') →
      applyTemplate ("\x7b\x7b" ++ p ++ "\x7d\x7d") doc =
        if isUndef (extractValue doc (strTrim p))
        then "\x7b\x7b" ++ p ++ "\x7d\x7d"
        else jsString (extractValue doc (strTrim p))) ∧
    applyTemplate "\x7b\x7b$.name\x7d\x7d is \x7b\x7b$.age\x7d\x7d"
        (jobj [("name", jstr "Ann"), ("age", jnum 30)]) = "Ann is 30" ∧
    applyTemplate "\x7b\x7b$.missing\x7d\x7d" (jobj []) = "\x7b\x7b$.missing\x7d\x7d" := by
  refine ⟨?_, rfl, rfl⟩
  intro p doc hne hnb
  have hdata : ("\x7b\x7b" ++ p ++ "\x7d\x7d").data = '{' :: '{' :: (p.data ++ ['}', '}']) := by
    rw [str_data_append, str_data_append]
    rfl
  unfold applyTemplate
  rw [hdata]
  rw [templateGo]
  simp only [takeWhile_body p.data hnb, List.drop_left]
  rw [if_pos (show p.data ≠ [] ∧ List.take 2 ['}', '}'] = ['}', '}'] from ⟨hne, rfl⟩)]
  rw [show List.drop 2 (['}', '}'] : List Char) = [] from rfl, templateGo_nil,
    List.append_nil]
  by_cases hu : isUndef (extractValue doc (strTrim (String.mk p.data))) = true
  · rw [if_pos hu, if_pos (show isUndef (extractValue doc (strTrim p)) = true from hu)]
    rw [← hdata]
  · rw [if_neg hu, if_neg (show ¬ isUndef (extractValue doc (strTrim p)) = true from hu)]

/-- Witness for C6's general placeholder rule at the path `$.name`. -/
theorem applyTemplate_spec_witness :
    ("$.name".data ≠ [] ∧ (∀ c ∈ "$.name".data, c ≠ '}')) ∧
    applyTemplate ("\x7b\x7b" ++ "$.name" ++ "\x7d\x7d") (jobj [("name", jstr "Ann")]) =
      (if isUndef (extractValue (jobj [("name", jstr "Ann")]) (strTrim "$.name"))
       then "\x7b\x7b" ++ "$.name" ++ "\x7d\x7d"
       else jsString (extractValue (jobj [("name", jstr "Ann")]) (strTrim "$.name"))) :=
  ⟨⟨by decide, by decide⟩,
    applyTemplate_spec.1 "$.name" (jobj [("name", jstr "Ann")]) (by decide) (by decide)⟩

/-- C9: the `format-number` transform fails — with the `Invalid number`
error — exactly when `Number(value)` is `NaN` (the value is non-numeric),
and otherwise returns the locale-aware fixed-decimal rendering of the
value; stated for configs that destructure (not `null`/`undefined`) and
whose `decimals`, when present, is an acceptable digit count, since a
degenerate config fails with `TypeError`/`RangeError` irrespective of the
value. -/
theorem formatNumber_spec (value : JValue) (cfg : List (String × JValue))
    (hdec : assocGet cfg "decimals" = jundef) :
    ((∃ e, formatNumber value (jobj cfg) = .error e) ↔ jsToNumber value = none) ∧
    (jsToNumber value = none →
      formatNumber value (jobj cfg) = .error ("Invalid number: " ++ jsString value)) ∧
    (∀ n, jsToNumber value = some n →
      formatNumber value (jobj cfg) = .ok (jstr (localeFixed n 2))) := by
  refine ⟨⟨?_, ?_⟩, ?_, ?_⟩
  · rintro ⟨e, he⟩
    cases hn : jsToNumber value with
    | none => rfl
    | some n =>
      rw [formatNumber, hn] at he
      simp only [getProp, exc_bind_ok, hdec] at he
      cases he
  · intro hn
    exact ⟨_, by rw [formatNumber, hn]⟩
  · intro hn
    rw [formatNumber, hn]
  · intro n hn
    rw [formatNumber, hn]
    simp only [getProp, exc_bind_ok, hdec]

/-- Witness for C9 at the numeric value `1234` and the non-numeric value
`"abc"`, each with the empty config. -/
theorem formatNumber_spec_witness :
    (assocGet [] "decimals" = jundef) ∧
    (jsToNumber (jnum 1234) = some 1234 →
      formatNumber (jnum 1234) (jobj []) = .ok (jstr (localeFixed 1234 2))) ∧
    (jsToNumber (jstr "abc") = none →
      formatNumber (jstr "abc") (jobj [])
        = .error ("Invalid number: " ++ jsString (jstr "abc"))) :=
  ⟨rfl, fun h => (formatNumber_spec (jnum 1234) [] rfl).2.2 1234 h,
    fun h => (formatNumber_spec (jstr "abc") [] rfl).2.1 h⟩

/-- C7 counterexample: a definition whose only defect is a step with no
input configuration (its input mappings are missing) is reported with a
`NO_INPUT` warning, not the claimed `NO_MAPPINGS` warning. -/
theorem validator_no_input_counterexample :
    (wfNoInput.steps.map VStep.mappings = [none]) ∧
    ("NO_MAPPINGS" ∉ (validateWorkflow sampleRegistry wfNoInput).warnings.map VIssue.code) ∧
    ((validateWorkflow sampleRegistry wfNoInput).warnings.map VIssue.code = ["NO_INPUT"]) ∧
    ((validateWorkflow sampleRegistry wfNoInput).valid = true) :=
  ⟨rfl, by decide, rfl, rfl⟩

/-- C7 amended: `valid` equals `errors = []`, so warnings alone never make
a definition invalid.  For a step whose integration and action are
present and whose integration resolves: a present input with missing or
empty mappings yields a `NO_MAPPINGS` warning, a missing input
configuration yields a `NO_INPUT` warning, and the input check
contributes no error (every step error is `MISSING_STEP_ID`,
`ACTION_NOT_FOUND` or `INVALID_RETRY_ATTEMPTS` there).  Concretely, a
definition whose only defect is a step with empty mappings is valid with
exactly a `NO_MAPPINGS` warning, and one whose only defect is a step
without input is valid with exactly a `NO_INPUT` warning. -/
theorem validator_warnings_spec :
    (∀ (reg : VRegistry) (wf : VWorkflow),
      (validateWorkflow reg wf).valid = true ↔ (validateWorkflow reg wf).errors = []) ∧
    (∀ (reg : VRegistry) (s : VStep) (idx : Nat) (integ : VIntegration),
      s.integration ≠ "" → s.action ≠ "" → reg s.integration = some integ →
      ((s.mappings = some none ∨ s.mappings = some (some []) →
        "NO_MAPPINGS" ∈ (validateStep reg s idx).2.map VIssue.code) ∧
      (s.mappings = none →
        "NO_INPUT" ∈ (validateStep reg s idx).2.map VIssue.code) ∧
      ∀ e ∈ (validateStep reg s idx).1,
        e.code = "MISSING_STEP_ID" ∨ e.code = "ACTION_NOT_FOUND" ∨
          e.code = "INVALID_RETRY_ATTEMPTS")) ∧
    ((validateWorkflow sampleRegistry wfEmptyMappings).valid = true ∧
      (validateWorkflow sampleRegistry wfEmptyMappings).warnings.map VIssue.code
        = ["NO_MAPPINGS"]) ∧
    ((validateWorkflow sampleRegistry wfNoInput).valid = true ∧
      (validateWorkflow sampleRegistry wfNoInput).warnings.map VIssue.code
        = ["NO_INPUT"]) := by
  refine ⟨?_, ?_, ⟨rfl, rfl⟩, ⟨rfl, rfl⟩⟩
  · intro reg wf
    simp [validateWorkflow, List.length_eq_zero]
  · intro reg s idx integ h2 h3 hreg
    unfold validateStep
    rw [if_neg h2, if_neg h3, hreg]
    simp only []
    refine ⟨?_, ?_, ?_⟩
    · intro hm
      rcases hm with hm | hm <;> rw [hm] <;> simp
    · intro hm
      rw [hm]
      simp
    · intro e he
      rcases List.mem_append.mp he with h | h
      · rcases List.mem_append.mp h with h | h
        · split at h
          · simp at h
            subst h
            exact Or.inl rfl
          · simp at h
        · split at h
          · simp at h
          · simp at h
            subst h
            exact Or.inr (Or.inl rfl)
      · split at h
        · simp at h
        · split at h
          · simp at h
            subst h
            exact Or.inr (Or.inr rfl)
          · simp at h

/-- Witness for the amended C7 at a concrete step with empty mappings. -/
theorem validator_warnings_witness :
    (("slack" : String) ≠ "" ∧ ("send" : String) ≠ "" ∧
      sampleRegistry "slack"
        = some { triggers := fun t => t = "message", actions := fun a => a = "send" }) ∧
    "NO_MAPPINGS" ∈ (validateStep sampleRegistry stepEmptyMappings 0).2.map VIssue.code :=
  ⟨⟨by decide, by decide, rfl⟩,
    ((validator_warnings_spec.2.1 sampleRegistry stepEmptyMappings 0
      { triggers := fun t => t = "message", actions := fun a => a = "send" }
      (by decide) (by decide) rfl).1 (Or.inr rfl))⟩

/-- C8: any exception raised inside the step executor's body — during field
mapping or handler invocation (or the preceding lookups) — is caught and
converted into a returned `{success:false,
error:{code:"EXECUTION_ERROR", message, details}}` result with the
StepLog finalized `failed`; `executeStep` is total and never propagates
the exception.  A mapping exception and a handler exception each surface
as such a body exception. -/
theorem executeStep_catches_spec :
    (∀ (env : EngineEnv) (step : WStep) (n : Nat) (prev : JValue) (e : String),
      executeStepBody env step prev = .error e →
      executeStep env step n prev =
        ({ success := false, data := jundef,
           error := some { code := "EXECUTION_ERROR", message := e, details := jundef } },
         { stepNumber := n, stepName := step.name, integration := step.integration,
           action := step.action, status := "failed", output := jundef,
           error := some e })) ∧
    (∀ (env : EngineEnv) (step : WStep) (prev : JValue) (a : Handler)
      (c : Credentials) (em : String),
      env.registry step.integration step.action = some a →
      env.connections step.connectionId = some c →
      applyFieldMappings env.fnEval step.mappings prev (step.staticVals.getD []) = .error em →
      executeStepBody env step prev = .error em) ∧
    (∀ (env : EngineEnv) (step : WStep) (prev : JValue) (a : Handler)
      (c : Credentials) (input : JValue) (eh : String),
      env.registry step.integration step.action = some a →
      env.connections step.connectionId = some c →
      applyFieldMappings env.fnEval step.mappings prev (step.staticVals.getD []) = .ok input →
      a input c = .error eh →
      executeStepBody env step prev = .error eh) := by
  refine ⟨?_, ?_, ?_⟩
  · intro env step n prev e h
    unfold executeStep
    rw [h]
  · intro env step prev a c em hreg hconn hmap
    unfold executeStepBody
    rw [hreg, hconn]
    simp only [exc_bind_ok, hmap, exc_bind_error]
  · intro env step prev a c input eh hreg hconn hmap hhandler
    unfold executeStepBody
    rw [hreg, hconn]
    simp only [exc_bind_ok, hmap, hhandler]

/-- Witness for C8 at a concrete step whose mapping writes to `$` (the
mapping engine throws `Cannot set root object`). -/
theorem executeStep_catches_witness :
    (executeStepBody sampleEnv stepBadMapping (jnum 7) = .error "Cannot set root object") ∧
    executeStep sampleEnv stepBadMapping 1 (jnum 7) =
      ({ success := false, data := jundef,
         error := some { code := "EXECUTION_ERROR", message := "Cannot set root object",
                         details := jundef } },
       { stepNumber := 1, stepName := stepBadMapping.name,
         integration := stepBadMapping.integration, action := stepBadMapping.action,
         status := "failed", output := jundef, error := some "Cannot set root object" }) :=
  ⟨rfl, executeStep_catches_spec.1 sampleEnv stepBadMapping 1 (jnum 7)
    "Cannot set root object" rfl⟩

/-- C2: in a 3-step workflow where step 1 succeeds, step 2 fails with
`continueOnError = true`, and step 3 succeeds, `executeWorkflow` ends the
Execution with status `success`, creates exactly 3 StepLogs, and the
accumulator passed to step 3 equals step 1's output — the failed
`continueOnError` step leaves the accumulator unchanged. -/
theorem executeWorkflow_continueOnError_spec
    (env : EngineEnv) (s1 s2 s3 : WStep) (wfId : String) (d0 : JValue)
    (r1 r2 r3 : ActionResult) (l1 l2 l3 : StepLog)
    (h1 : executeStep env s1 1 d0 = (r1, l1)) (hs1 : r1.success = true)
    (h2 : executeStep env s2 2 r1.data = (r2, l2)) (hs2 : r2.success = false)
    (hc2 : s2.continueOnError = true)
    (h3 : executeStep env s3 3 r1.data = (r3, l3)) (hs3 : r3.success = true) :
    (executeWorkflow env (fun _ => some [s1, s2, s3]) wfId d0).1.status = "success" ∧
    (executeWorkflow env (fun _ => some [s1, s2, s3]) wfId d0).2.1 = [l1, l2, l3] ∧
    (executeWorkflow env (fun _ => some [s1, s2, s3]) wfId d0).2.2.1
      = [d0, r1.data, r1.data] := by
  have hrun : runSteps env [s1, s2, s3] 1 d0
      = (.completed r3.data, [l1, l2, l3], [d0, r1.data, r1.data]) := by
    rw [runSteps, h1]
    simp only [hs1, if_true]
    rw [show (1 : Nat) + 1 = 2 from rfl, runSteps, h2]
    simp only [hs2, Bool.false_eq_true, if_false, hc2, if_true]
    rw [show (2 : Nat) + 1 = 3 from rfl, runSteps, h3]
    simp only [hs3, if_true]
    rw [runSteps]
  refine ⟨?_, ?_, ?_⟩ <;> simp only [executeWorkflow, hrun]

/-- Witness for C2 on the concrete 3-step workflow where the middle step's
action fails with `continueOnError`. -/
theorem executeWorkflow_continueOnError_witness :
    (executeWorkflow sampleEnv (fun _ => some [stepOkA, stepFailB, stepOkC])
      "wf1" (jnum 7)).1.status = "success" ∧
    (executeWorkflow sampleEnv (fun _ => some [stepOkA, stepFailB, stepOkC])
      "wf1" (jnum 7)).2.1.length = 3 ∧
    (executeWorkflow sampleEnv (fun _ => some [stepOkA, stepFailB, stepOkC])
      "wf1" (jnum 7)).2.2.1 = [jnum 7, jobj [], jobj []] := by
  have h := executeWorkflow_continueOnError_spec sampleEnv stepOkA stepFailB stepOkC
    "wf1" (jnum 7) _ _ _ _ _ _ rfl rfl rfl rfl rfl rfl rfl
  exact ⟨h.1, by rw [h.2.1]; rfl, h.2.2⟩

end RuleEngine
